import Mathlib

/-!
Shallow embedding of the gstore-node Entity/Model persistence engine
(repository sebelga/datastools), covering:

- the record sanitizer (src/unnamed/part_003, lines 21-59, and the public
  Model.sanitize wrapper, lines 663-665);
- entity key derivation, createKey / parseId (src/lib/entity.js, lines 320-371);
- the serializer toDatastore / getExcludeFromIndexes (src/lib/entity.js,
  lines 492-531, identical logic in src/src/helpers/queryhelpers.ts, 129-166);
- the Model.deleteAll batch loop (src/unnamed/part_003, lines 461-552, same
  code in src/unnamed/part_006, lines 427-520);
- the two Model.update implementations: the TypeScript one with the
  internalTransaction guard (src/unnamed/part_006, lines 222-360) and the
  older JavaScript one (src/unnamed/part_003, lines 251-391);
- the populate engine (src/unnamed/part_003, lines 695-810, same code in
  src/unnamed/part_006, lines 707-842) with its per-key deduplicating loader.

JavaScript data is modelled by the inductive `JsVal`; JS objects are
association lists with unique keys in insertion order (assignment replaces a
value in place, a new key is appended); `undefined` and `null` are distinct
values, as in JS.
-/

/-- Identifier component of a Datastore key path: a string name or an
integer id (`datastore.int` values are integer ids). -/
inductive KeyId where
  | str (s : String)
  | int (n : Int)
deriving DecidableEq, Repr

/-- A Datastore key: optional namespace plus the key path, a flat list of
kind and identifier components, e.g. `[str "User", int 42]`. A path whose
last component is a kind (no trailing identifier) is an incomplete key. -/
structure DsKey where
  ns : Option String
  path : List KeyId
deriving DecidableEq, Repr

/-- JavaScript runtime values, as far as the embedded code inspects them.
`key` is a Datastore Key object (`gstore.ds.isKey` distinguishes these). -/
inductive JsVal where
  | undef
  | null
  | bool (b : Bool)
  | num (n : Int)
  | str (s : String)
  | arr (elems : List JsVal)
  | obj (fields : List (String × JsVal))
  | key (k : DsKey)

/-- A JS object body: ordered association list of own enumerable fields. -/
abbrev JsRec := List (String × JsVal)

/-- Lookup of the first binding of a key in an association list
(JS object property read; object keys are unique). -/
def alistGet {κ α : Type} [DecidableEq κ] : List (κ × α) → κ → Option α
  | [], _ => none
  | (k, v) :: rest, k0 => if k = k0 then some v else alistGet rest k0

/-- JS property assignment on an association list: replaces the first
binding of the key in place, otherwise appends the new binding. -/
def alistPut {κ α : Type} [DecidableEq κ] : List (κ × α) → κ → α → List (κ × α)
  | [], k0, v0 => [(k0, v0)]
  | (k, v) :: rest, k0, v0 =>
    if k = k0 then (k0, v0) :: rest else (k, v) :: alistPut rest k0 v0

/-- JS truthiness test on our value model (`NaN` is outside the model). -/
def jsFalsy : JsVal → Bool
  | .undef => true
  | .null => true
  | .bool b => !b
  | .num n => n == 0
  | .str s => s == ""
  | _ => false

/-- Test for the JS value `undefined` (`typeof value !== 'undefined'`). -/
def isUndef : JsVal → Bool
  | .undef => true
  | _ => false

/-- Test for the JS value `null` (`value !== null`). -/
def isNull : JsVal → Bool
  | .null => true
  | _ => false

/-- Test for the literal JS string `"null"` (`sanitized[k] === 'null'`). -/
def isStrNull : JsVal → Bool
  | .str s => s == "null"
  | _ => false

/-- Plain-object test: the `is.object` predicate used by `sanitize`
(src/unnamed/part_003, line 22). It is true only for plain objects;
null, undefined, strings, numbers, booleans and arrays are not objects. -/
def isJsObject : JsVal → Bool
  | .obj _ => true
  | _ => false

/-- Value lookup along a dotted path, split into segments: the semantics of
`lodash.get` as used by populate. A missing segment, or traversal into a
non-object (including null), yields undefined. -/
def lget : List String → JsVal → JsVal
  | [], v => v
  | k :: rest, v =>
    match v with
    | .obj fs =>
      match alistGet fs k with
      | some w => lget rest w
      | none => .undef
    | _ => JsVal.undef

/-- Helper for `lset` on the fields of an object. Intermediate segments
whose current value is not an object (missing, null, undefined, scalar) are
replaced by a fresh empty object, exactly as `lodash.set` does; the
array-index case of lodash (numeric next segment) does not arise for the
reference paths handled here. -/
def lsetFields : List String → JsRec → JsVal → JsRec
  | [], fs, _ => fs
  | [k], fs, v => alistPut fs k v
  | k :: k2 :: rest, fs, v =>
    let child : JsRec :=
      match alistGet fs k with
      | some (.obj g) => g
      | _ => []
    alistPut fs k (.obj (lsetFields (k2 :: rest) child v))

/-- Value update along a dotted path: the semantics of `lodash.set` as used
by populate. Setting into a non-object root returns it unchanged
(lodash: `if (!isObject(object)) return object`). -/
def lset (path : List String) (root : JsVal) (v : JsVal) : JsVal :=
  match root with
  | .obj fs => .obj (lsetFields path fs v)
  | x => x

/-- Shallow merge `extend(false, entity, data)` (src/unnamed/part_006,
line 274; src/unnamed/part_003, line 309): every own field of `data` whose
value is not undefined is assigned onto `entity`, overwriting in place. -/
def extendShallow (target source : JsRec) : JsRec :=
  source.foldl (fun acc kv => if isUndef kv.2 then acc else alistPut acc kv.1 kv.2) target

/-- One schema path definition, restricted to the facets the embedded code
reads: `write` models `schema.paths[k].write !== false` (true when the
field is writable), `excludeFromIndexes` and the rest are not needed by the
claims settled here. -/
structure PathDef where
  write : Bool := true
deriving DecidableEq, Repr

/-- A non-Joi schema, restricted to the facets the embedded code reads:
the declared path map, the resolved explicit-only flag
(`schema.options.explicitOnly !== false` in part_003), and the `keyType`
option read by `parseId` in src/lib/entity.js. -/
structure Schema where
  paths : List (String × PathDef)
  explicitOnly : Bool := true
  keyType : Option String := none
deriving DecidableEq, Repr

/-- Deletion condition of `sanitize` for a field name
(src/unnamed/part_003, line 51): the key is dropped when the schema is
explicit-only and does not declare it, or when it is declared non-writable
and write-sanitization is not disabled. `writeDisabled` is
`options.disabled.includes('write')`. -/
def sanitizeDrops (schema : Schema) (writeDisabled : Bool) (k : String) : Bool :=
  let schemaHasProperty := (alistGet schema.paths k).isSome
  let isPropWritable :=
    match alistGet schema.paths k with
    | some p => p.write
    | none => true
  (schema.explicitOnly && !schemaHasProperty) || (!isPropWritable && !writeDisabled)

/-- Decision for one field of the record inside `sanitize`
(src/unnamed/part_003, lines 45-56): none means the field is deleted;
otherwise the (possibly null-normalized) binding is kept. -/
def sanitizeEntry (schema : Schema) (writeDisabled : Bool) (kv : String × JsVal) :
    Option (String × JsVal) :=
  if sanitizeDrops schema writeDisabled kv.1 then
    none
  else if isStrNull kv.2 then
    some (kv.1, .null)
  else
    some kv

/-- Body of `sanitize` for a plain object record (src/unnamed/part_003,
lines 34-58, non-Joi branch): every key of the input is visited once; it is
deleted when the schema is explicit-only and does not know it, or when it
is not writable and write-sanitization is not disabled; a kept value that
is the literal string "null" becomes null. -/
def sanitizeRec (schema : Schema) (writeDisabled : Bool) (r : JsRec) : JsRec :=
  r.filterMap (sanitizeEntry schema writeDisabled)

/-- The `sanitize` function of src/unnamed/part_003, lines 21-59 (non-Joi
schemas): non-objects are mapped to null, objects are sanitized per field. -/
def sanitize (schema : Schema) (writeDisabled : Bool) (data : JsVal) : JsVal :=
  match data with
  | .obj r => .obj (sanitizeRec schema writeDisabled r)
  | _ => .null

/-- The public `Model.sanitize` (src/unnamed/part_003, lines 663-665):
calls `sanitize(data, this.schema)` with the default options, whose
`disabled` list is empty, so write-sanitization is enabled. -/
def modelSanitize (schema : Schema) (data : JsVal) : JsVal :=
  sanitize schema false data

/-- Numeric value of a non-empty list of decimal digit characters. -/
def decDigits (cs : List Char) : Option Nat :=
  if cs.length > 0 && cs.all Char.isDigit then
    some (cs.foldl (fun a c => a * 10 + (c.toNat - 48)) 0)
  else
    none

/-- Decimal-integer string parser. Models the JS test `isFinite(id)`
together with the numeric value of `datastore.int(id)` for the
integer-like ids the spec and claims discuss (strings of decimal digits,
optionally negated); other numeric spellings of JS (fractional, exponent,
whitespace) are outside the scope of the claims settled here. -/
def parseDecInt (s : String) : Option Int :=
  match s.data with
  | '-' :: rest => (decDigits rest).map (fun n => -(n : Int))
  | cs => (decDigits cs).map (fun n => (n : Int))

/-- An id as accepted by the entity constructor: a string, a number, or
anything else (which `parseId` rejects). -/
inductive JsId where
  | str (s : String)
  | num (n : Int)
  | other
deriving DecidableEq, Repr

/-- The `parseId` of src/lib/entity.js, lines 353-371: a string id is kept
as a name when `keyType` is "name", coerced with `datastore.int` when
`keyType` is "id", and otherwise auto-converted to the integer key form
exactly when `isFinite(id)` holds; numbers pass through; anything else
throws. `datastore.int` on a non-numeric string is modelled as keeping the
string, which the claims never exercise. -/
def parseId (schema : Schema) : JsId → Except String KeyId
  | .str s =>
    if schema.keyType = some "name" then .ok (.str s)
    else if schema.keyType = some "id" then
      .ok (match parseDecInt s with | some n => .int n | none => .str s)
    else
      match parseDecInt s with
      | some n => .ok (.int n)
      | none => .ok (.str s)
  | .num n => .ok (.int n)
  | .other => .error "id must be a string or a number"

/-- JS truthiness of the id argument (`if (id)` in createKey): null and
undefined are modelled by `none`; the number 0 and the empty string are
falsy ids. -/
def jsIdTruthy : Option JsId → Bool
  | none => false
  | some (.str s) => !(s == "")
  | some (.num n) => !(n == 0)
  | some .other => true

/-- The `createKey` of src/lib/entity.js, lines 320-345: a truthy id is
parsed and appended after the kind; ancestors (when an array) are prefixed;
the namespace is carried on the key. -/
def createKey (kind : String) (schema : Schema) (id : Option JsId)
    (ancestors : Option (List KeyId)) (ns : Option String) : Except String DsKey := do
  let anc := ancestors.getD []
  if jsIdTruthy id then
    match id with
    | some i => do
      let pid ← parseId schema i
      .ok ⟨ns, anc ++ [.str kind, pid]⟩
    | none => .error "unreachable: truthy id is present"
  else
    .ok ⟨ns, anc ++ [.str kind]⟩

/-- Wire record produced by the serializer: key, data, and the computed
index-exclusion list (src/lib/entity.js lines 507-514; the TS variant in
queryhelpers.ts additionally passes through excludeLargeProperties). -/
structure DatastoreFormat where
  key : DsKey
  data : JsRec
  excludeFromIndexes : List String

/-- An entity as seen by the serializer: its key, its entityData record and
its excludeFromIndexes map from field name to the list of dotted exclusion
paths contributed by that field (the shape the TS serializer types as
`entity.excludeFromIndexes[key] as string[]`). -/
structure SerEntity where
  entityKey : DsKey
  entityData : JsRec
  excludeFromIndexes : List (String × List String)

/-- The `getExcludeFromIndexes` helper (src/lib/entity.js lines 524-530,
src/src/helpers/queryhelpers.ts lines 129-134): entries of the (already
undefined-stripped) data whose value is not null are mapped to the
exclusion paths registered for their key; fields with no registered entry
drop out; the per-field lists are concatenated. -/
def getExcludeFromIndexes (data : JsRec) (ex : List (String × List String)) : List String :=
  ((data.filter (fun kv => !isNull kv.2)).filterMap (fun kv => alistGet ex kv.1)).flatten

/-- The serializer `toDatastore` (src/lib/entity.js lines 492-521,
src/src/helpers/queryhelpers.ts lines 138-166): the data is the entityData
with every undefined-valued entry dropped; the exclusion list is computed
from the remaining non-null entries. -/
def toDatastore (e : SerEntity) : DatastoreFormat :=
  let data := e.entityData.filter (fun kv => !isUndef kv.2)
  { key := e.entityKey
    data := data
    excludeFromIndexes := getExcludeFromIndexes data e.excludeFromIndexes }

/-- Observable events of one `deleteAll` run. `query` records a key query
result, `deleteBatch` one batched store delete (with the clearQueries flag
passed to `Model.delete`), `deleteOne` a single-key delete from the
hook-honouring serial path, `delay` the fixed inter-batch timeout. -/
inductive DelEvent where
  | query (returned : List Nat)
  | deleteBatch (keys : List Nat) (clearQueries : Bool)
  | deleteOne (key : Nat)
  | delay
deriving DecidableEq, Repr

/-- The per-call delete limit of the store, `maxEntitiesPerBatch`
(src/unnamed/part_003, line 464). -/
def maxEntitiesPerBatch : Nat := 500

/-- The query cap `limitDataPerQuery` (src/unnamed/part_003, line 471). -/
def limitDataPerQuery : Nat := 100000

/-- The inner batch loop `deleteEntities` / `onEntitiesDeleted`
(src/unnamed/part_003, lines 515-552). `remaining` is
`totalBatches - currentBatch`, `b` the current batch index; each step
deletes the slice `entities.slice(b*500, b*500+500)` from the store (the
hook-honouring path deletes the same keys one by one) and a `delay` event
separates consecutive batches; the store state is returned for the re-run
of the query. The clearQueries flag is true only on the first batch. -/
def deleteBatches (hasDeleteHooks : Bool) (entities : List Nat) :
    Nat → Nat → List Nat → List DelEvent × List Nat
  | 0, _, store => ([], store)
  | 1, b, store =>
    let batch := (entities.drop (b * maxEntitiesPerBatch)).take maxEntitiesPerBatch
    let evs := if hasDeleteHooks then batch.map DelEvent.deleteOne
               else [.deleteBatch batch (b == 0)]
    (evs, store.filter (fun k => !batch.contains k))
  | r + 2, b, store =>
    let batch := (entities.drop (b * maxEntitiesPerBatch)).take maxEntitiesPerBatch
    let evs := if hasDeleteHooks then batch.map DelEvent.deleteOne
               else [.deleteBatch batch (b == 0)]
    let store1 := store.filter (fun k => !batch.contains k)
    (evs ++ .delay :: (deleteBatches hasDeleteHooks entities (r + 1) (b + 1) store1).1,
     (deleteBatches hasDeleteHooks entities (r + 1) (b + 1) store1).2)

/-- The `deleteAll` loop (src/unnamed/part_003, lines 461-552): the capped
key query is run; when it returns no keys the run stops successfully,
otherwise `Math.ceil(n / 500)` batches are deleted strictly sequentially
with an inter-batch delay and the query is re-run. The backing store is
modelled as the list of keys currently stored, in query order; `fuel`
bounds the number of outer query rounds (the source recursion terminates
because deleted keys leave the store). Returns none only when fuel runs
out before a query comes back empty. -/
def runDeleteAll (hasDeleteHooks : Bool) : Nat → List Nat → Option (List DelEvent)
  | 0, _ => none
  | fuel + 1, store =>
    let fetched := store.take limitDataPerQuery
    if fetched.length = 0 then
      some [.query fetched]
    else
      let totalBatches := (fetched.length + (maxEntitiesPerBatch - 1)) / maxEntitiesPerBatch
      match runDeleteAll hasDeleteHooks fuel (deleteBatches hasDeleteHooks fetched totalBatches 0 store).2 with
      | none => none
      | some rest =>
        some (.query fetched :: ((deleteBatches hasDeleteHooks fetched totalBatches 0 store).1 ++ rest))

/-- Operations invoked on a transaction object or directly on the store
during one `Model.update` call. `save` is `transaction.save`, `dsSave` the
non-transactional `datastore.save`; the key recorded with a save is the
key of the wire record handed to the store. -/
inductive TxnOp where
  | run
  | get (k : DsKey)
  | save (k : DsKey)
  | dsSave (k : DsKey)
  | commit
  | rollback
deriving DecidableEq, Repr

/-- Outcome of one `Model.update` call. `errRollbackResponse` models the
object thrown by the part_003 `onTransactionError` handler, which is built
from the rollback response rather than from the original error. -/
inductive UpdateOutcome where
  | ok (key : DsKey) (data : JsRec)
  | errNotFound
  | errValidation
  | errRollbackResponse

/-- Trace of one `Model.update` call: the transaction operations issued in
order (on the caller-supplied transaction when `usedExternalTxn`, else on
the internally opened one) and the settled outcome of the promise. -/
structure UpdateRun where
  ops : List TxnOp
  usedExternalTxn : Bool
  outcome : UpdateOutcome

/-- The TypeScript `Model.update` (src/unnamed/part_006, lines 222-360).
Parameters: the backing store as a partial map from keys to records, the
derived entity key, the merge data, the replace option, whether the caller
supplied a transaction, and the outcome of the validate-before-save step
inside `model.save` (the Validator lives in lib/helpers/validation, which
is not under src/, so its verdict is a parameter; `saveOk` is always true
when the schema sets validateBeforeSave to false).

Control flow from the source: with `replace`, saveEntity runs directly and
onEntityUpdated / onUpdateError consult the `internalTransaction` flag
(lines 231, 308-336), so a caller-supplied transaction is never committed
nor rolled back; without a transaction one is opened internally
(`internalTransaction = true`, lines 243-250) and is committed on success
and rolled back on failure; with a caller-supplied transaction the chain
`getAndUpdate()` is returned without a catch handler (line 256), so errors
propagate and no commit or rollback is issued. `getEntity` (lines 266-283)
throws ERR_ENTITY_NOT_FOUND when the transactional read finds nothing and
otherwise shallow-merges the data over the fetched record. A successful
transactional `model.save` registers the wire record on the transaction. -/
def updateTs (store : DsKey → Option JsRec) (key : DsKey) (data : JsRec)
    (replace externalTxn saveOk : Bool) : UpdateRun :=
  if replace then
    if externalTxn then
      if saveOk then ⟨[.save key], true, .ok key data⟩
      else ⟨[], true, .errValidation⟩
    else
      if saveOk then ⟨[.dsSave key], false, .ok key data⟩
      else ⟨[], false, .errValidation⟩
  else if externalTxn then
    match store key with
    | none => ⟨[.get key], true, .errNotFound⟩
    | some rec =>
      if saveOk then ⟨[.get key, .save key], true, .ok key (extendShallow rec data)⟩
      else ⟨[.get key], true, .errValidation⟩
  else
    match store key with
    | none => ⟨[.run, .get key, .rollback], false, .errNotFound⟩
    | some rec =>
      if saveOk then
        ⟨[.run, .get key, .save key, .commit], false, .ok key (extendShallow rec data)⟩
      else ⟨[.run, .get key, .rollback], false, .errValidation⟩

/-- Static configuration of the part_003 `Model.update` machine: the
entity kind (used for the fresh incomplete key built on the missing-entity
path) and the schema default record produced by `buildEntityData` for an
empty data argument. -/
structure JsUpdateCfg where
  kind : String
  schemaDefaults : JsRec

/-- The older JavaScript `Model.update` (src/unnamed/part_003, lines
251-391), non-replace paths. Differences from the TypeScript version,
traced from the source:

1. `onEntityUpdated` commits and `onUpdateError` rolls back whenever the
   `transaction` variable is set (lines 347-351 and 356-360) — and it is
   always set on the non-replace paths, whether the transaction was opened
   internally or supplied by the caller.
2. The catch handler of `getEntity` (lines 318-321) stores the
   ERR_ENTITY_NOT_FOUND error and returns it as a value, so the promise
   chain continues into `saveEntity` with the error object as `getData`:
   `getData.key` and `getData.data` are undefined, a fresh entity with an
   incomplete key and the schema defaults is built by `__model`, and it is
   saved and committed when validation passes.
3. After a rollback, `onTransactionError` (lines 384-390) throws an object
   derived from the rollback response, not the original error. -/
def updateJs (store : DsKey → Option JsRec) (cfg : JsUpdateCfg) (key : DsKey)
    (data : JsRec) (externalTxn saveOk : Bool) : UpdateRun :=
  let pre : List TxnOp := if externalTxn then [] else [.run]
  match store key with
  | some rec =>
    if saveOk then
      { ops := pre ++ [.get key, .save key, .commit]
        usedExternalTxn := externalTxn
        outcome := .ok key (extendShallow rec data) }
    else
      { ops := pre ++ [.get key, .rollback]
        usedExternalTxn := externalTxn
        outcome := .errRollbackResponse }
  | none =>
    let freshKey : DsKey := ⟨none, [.str cfg.kind]⟩
    if saveOk then
      { ops := pre ++ [.get key, .save freshKey, .commit]
        usedExternalTxn := externalTxn
        outcome := .ok freshKey cfg.schemaDefaults }
    else
      { ops := pre ++ [.get key, .rollback]
        usedExternalTxn := externalTxn
        outcome := .errRollbackResponse }

/-- Helper of `splitDot`: accumulates the current segment (reversed). -/
def splitDotAux : List Char → List Char → List String
  | [], acc => [String.mk acc.reverse]
  | c :: rest, acc =>
    if c = '.' then String.mk acc.reverse :: splitDotAux rest []
    else splitDotAux rest (c :: acc)

/-- Splitting of a dotted property path into segments, the path parsing
performed by lodash get/set on string paths. -/
def splitDot (s : String) : List String :=
  splitDotAux s.data []

/-- Joining of path segments with dots (inverse of `splitDot` for
segments without dots). -/
def joinDot : List String → String
  | [] => ""
  | [s] => s
  | s :: rest => s ++ "." ++ joinDot rest

/-- One reference to populate: the dotted path and the selected fields
(`{ path, select }` in the source; an empty select means all fields). -/
structure PopRef where
  path : String
  select : List String
deriving DecidableEq, Repr

/-- Per-entity metadata gathered by `getPopulateMetaForEntity`: the entity
data after the null writes for absent references, the keys queued for the
batched fetch, and the per-key map to the requesting ref. The source keys
this map by the stringified key (`keyToString`, an injective serialization
from nsql-cache-datastore), modelled here as keying by the key itself. -/
structure PopulateMeta where
  entity : JsVal
  keysToFetch : List DsKey
  keyMap : List (DsKey × PopRef)

/-- The `getPopulateMetaForEntity` closure (src/unnamed/part_003, lines
699-727; src/unnamed/part_006, lines 710-742): for each ref at the level,
the value at the dotted path is read; a falsy value makes the path be set
to null and the ref skipped; a non-key value aborts the whole populate
call; a key value is registered in the per-key map (overwriting any
earlier ref with the same key) and appended to the fetch list. -/
def getPopulateMetaForEntity (ed : JsVal) (entityRefs : List PopRef) :
    Except String PopulateMeta :=
  entityRefs.foldlM
    (fun acc ref =>
      let kv := lget (splitDot ref.path) acc.entity
      if jsFalsy kv then
        .ok { acc with entity := lset (splitDot ref.path) acc.entity .null }
      else
        match kv with
        | .key k =>
          .ok { acc with
                keyMap := alistPut acc.keyMap k ref
                keysToFetch := acc.keysToFetch ++ [k] }
        | _ =>
          .error ("[gstore] " ++ ref.path ++
            " is not a Datastore Key. Reference entity cannot be fetched."))
    ⟨ed, [], []⟩

/-- State of the per-call DataLoader: the load-and-cache map from key to
fetched value and the log of keys actually requested from the backing
store, in request order. -/
structure Loader where
  cache : List (DsKey × JsVal)
  fetched : List DsKey

/-- Value delivered for one store fetch: the record when the key is held,
null otherwise (DataLoader yields null for keys the store does not hold). -/
def fetchVal (store : DsKey → Option JsRec) (k : DsKey) : JsVal :=
  match store k with
  | some r => .obj r
  | none => .null

/-- Modelled from the spec: `gstore.createDataLoader` (lib/dataloader.js is
not under src/) builds a DataLoader over `datastore.get` whose cache is a
load-and-cache-per-key map keyed by the stringified key; `loadMany(keys)`,
elaborated here sequentially over the loader state, returns one result per
requested key: a cached key resolves from the cache, an uncached key is
fetched from the store (logged in `fetched`) exactly once and cached. -/
def loadEach (store : DsKey → Option JsRec) : List DsKey → Loader → List JsVal × Loader
  | [], ld => ([], ld)
  | k :: rest, ld =>
    match alistGet ld.cache k with
    | some v =>
      ((loadEach store rest ld).1.cons v, (loadEach store rest ld).2)
    | none =>
      ((loadEach store rest ⟨ld.cache ++ [(k, fetchVal store k)], ld.fetched ++ [k]⟩).1.cons
          (fetchVal store k),
        (loadEach store rest ⟨ld.cache ++ [(k, fetchVal store k)], ld.fetched ++ [k]⟩).2)

/-- Trailing identifier of a key as read by `key.name || key.id`: a string
name or a numeric id; an incomplete key has neither, so the expression is
undefined. -/
def idOfKey (k : DsKey) : JsVal :=
  match k.path.getLast? with
  | some (.str s) => .str s
  | some (.int n) => .num n
  | none => JsVal.undef

/-- Projection of a fetched reference record before splicing it at the
path (src/unnamed/part_003, lines 766-778): when a select list is given
and does not contain "*", an object with only the selected fields
(falsy field values become null) is built; otherwise the plain
representation of the embedded entity, which for schemas without
read-restricted, datetime or excludeFromRead paths is the record itself.
In both cases the `id` derived from the key is assigned on top. -/
def projectEmbedded (k : DsKey) (rec : JsRec) (select : List String) : JsVal :=
  let json : JsRec :=
    if select.length != 0 && !(select.contains "*") then
      select.foldl
        (fun acc f =>
          let v := (alistGet rec f).getD .undef
          alistPut acc f (if jsFalsy v then .null else v))
        []
    else rec
  .obj (alistPut json "id" (idOfKey k))

/-- The `mergeRefEntitiesToEntityData` loop of `onKeysFetched`
(src/unnamed/part_003, lines 748-786): the i-th response is routed through
`keysToFetch[i]` and the per-key map to a ref; a falsy response value is
written as-is at the path, otherwise the projected record is. The map
lookup cannot miss for fetched keys; a miss leaves the entity unchanged. -/
def mergeRefEntities (ed0 : JsVal) (ks : List DsKey) (m : List (DsKey × PopRef))
    (vs : List JsVal) : JsVal :=
  (List.zip ks vs).foldl
    (fun ed kv =>
      match alistGet m kv.1 with
      | none => ed
      | some ref =>
        if jsFalsy kv.2 then lset (splitDot ref.path) ed kv.2
        else
          match kv.2 with
          | .obj rec => lset (splitDot ref.path) ed (projectEmbedded kv.1 rec ref.select)
          | _ => ed)
    ed0

/-- Metadata collection for all entities at one level:
`entities.map(entity => getPopulateMetaForEntity(entity, entityRefs))`
(src/unnamed/part_003, line 746); a throw aborts the level. -/
def populateMetas (entityRefs : List PopRef) : List JsVal → Except String (List PopulateMeta)
  | [] => .ok []
  | e :: es => do
    let m ← getPopulateMetaForEntity e entityRefs
    let ms ← populateMetas entityRefs es
    .ok (m :: ms)

/-- Fetch-and-merge for the metas of one level (src/unnamed/part_003,
lines 789-796): a meta with no keys resolves null and its entity is left
as the meta produced it; otherwise its keys go through the shared
deduplicating loader and the responses are merged into the entity. -/
def fetchAndMerge (store : DsKey → Option JsRec) :
    List PopulateMeta → Loader → List JsVal × Loader
  | [], ld => ([], ld)
  | meta :: rest, ld =>
    if meta.keysToFetch.isEmpty then
      ((fetchAndMerge store rest ld).1.cons meta.entity, (fetchAndMerge store rest ld).2)
    else
      let ld1 := (loadEach store meta.keysToFetch ld).2
      let e := mergeRefEntities meta.entity meta.keysToFetch meta.keyMap
        (loadEach store meta.keysToFetch ld).1
      ((fetchAndMerge store rest ld1).1.cons e, (fetchAndMerge store rest ld1).2)

/-- The level loop of `Model.populate` (src/unnamed/part_003, lines
799-808): levels are processed strictly in order, each over the entity
list produced by the previous one; an error aborts the run. -/
def runLevels (store : DsKey → Option JsRec) :
    List (List PopRef) → List JsVal → Loader → Except String (List JsVal) × Loader
  | [], ents, ld => (.ok ents, ld)
  | lvl :: rest, ents, ld =>
    match populateMetas lvl ents with
    | .error e => (.error e, ld)
    | .ok metas =>
      runLevels store rest (fetchAndMerge store metas ld).1 (fetchAndMerge store metas ld).2

/-- One `Model.populate` run over plain entity-data records (the
entity-instance variant manipulates the same entityData): returns the
settled result and the list of keys fetched from the backing store, in
order. An empty refs list resolves immediately with the input. -/
def runPopulate (store : DsKey → Option JsRec) (refs : List (List PopRef))
    (ents : List JsVal) : Except String (List JsVal) × List DsKey :=
  ((runLevels store refs ents ⟨[], []⟩).1, (runLevels store refs ents ⟨[], []⟩).2.fetched)

/-- Modelled from the spec: the grouping of a dotted populate path into
levels done by `populateFactory` (lib/helpers/populateHelpers is not under
src/). A path of n+1 segments registers, for every depth i ≤ n, the prefix
of i+1 segments as a ref at level i, selecting all fields at intermediate
levels and the requested fields at the final level; so `address` sits at
level 0 and `address.addressBook` at level 1 and is resolved only after
`address`. -/
def refsForPath (path : String) (select : List String) : List (List PopRef) :=
  let segs := splitDot path
  (List.range segs.length).map
    (fun i =>
      [{ path := joinDot (segs.take (i + 1))
         select := if i + 1 = segs.length then select else ["*"] }])

/-- Characterization of a kept sanitize entry: the key is unchanged and
not dropped, and the value is either the null-normalization of a literal
"null" string or the unchanged original. -/
theorem sanitizeEntry_eq_some (schema : Schema) (w : Bool) (a kv : String × JsVal)
    (h : sanitizeEntry schema w a = some kv) :
    sanitizeDrops schema w a.1 = false ∧
      ((isStrNull a.2 = true ∧ kv = (a.1, .null)) ∨ (isStrNull a.2 = false ∧ kv = a)) := by
  unfold sanitizeEntry at h
  by_cases h1 : sanitizeDrops schema w a.1
  · simp [h1] at h
  · by_cases h2 : isStrNull a.2
    · simp [h1, h2] at h
      exact ⟨by simpa using h1, Or.inl ⟨h2, h.symm⟩⟩
    · simp [h1, h2] at h
      exact ⟨by simpa using h1, Or.inr ⟨by simpa using h2, h.symm⟩⟩

/-- Sanitizing a kept entry again keeps it unchanged: a null-normalized
value is no longer the literal string "null", and the drop decision
depends only on the unchanged key. -/
theorem sanitizeEntry_idem (schema : Schema) (w : Bool) (a kv : String × JsVal)
    (h : sanitizeEntry schema w a = some kv) :
    sanitizeEntry schema w kv = some kv := by
  obtain ⟨hdrop, hval⟩ := sanitizeEntry_eq_some schema w a kv h
  rcases hval with ⟨_, rfl⟩ | ⟨hns, rfl⟩
  · simp [sanitizeEntry, hdrop, isStrNull]
  · simp [sanitizeEntry, hdrop, hns]

/-- Helper for C8: the per-record sanitizer is idempotent. -/
theorem sanitizeRec_idem (schema : Schema) (w : Bool) (r : JsRec) :
    sanitizeRec schema w (sanitizeRec schema w r) = sanitizeRec schema w r := by
  induction r with
  | nil => rfl
  | cons a rest ih =>
    unfold sanitizeRec at ih ⊢
    rw [List.filterMap_cons]
    cases h : sanitizeEntry schema w a with
    | none => exact ih
    | some kv => rw [List.filterMap_cons, sanitizeEntry_idem schema w a kv h, ih]

/-- C8: sanitize is idempotent: applying it to its own output yields the
same result as applying it once, for every value, schema and option set
(src/unnamed/part_003, lines 21-59; a sanitized object keeps only entries
the second pass also keeps unchanged, and a non-object input maps to null,
which maps to null again). -/
theorem sanitize_idempotent (schema : Schema) (w : Bool) (d : JsVal) :
    sanitize schema w (sanitize schema w d) = sanitize schema w d := by
  cases d <;> try rfl
  case obj r =>
    show JsVal.obj (sanitizeRec schema w (sanitizeRec schema w r)) =
      JsVal.obj (sanitizeRec schema w r)
    rw [sanitizeRec_idem]

/-- C9: the public Model.sanitize maps every non-object input (null,
undefined, string, number, boolean, array) to null
(src/unnamed/part_003, lines 22-24 and 663-665). -/
theorem modelSanitize_non_object (schema : Schema) (d : JsVal)
    (h : isJsObject d = false) : modelSanitize schema d = .null := by
  cases d <;> simp_all [modelSanitize, sanitize, isJsObject]

/-- Witness for C9 at a concrete non-object input (an array). -/
theorem modelSanitize_non_object_witness :
    isJsObject (.arr [.num 1]) = false ∧
      modelSanitize { paths := [("email", {})] } (.arr [.num 1]) = .null :=
  ⟨rfl, modelSanitize_non_object { paths := [("email", {})] } (.arr [.num 1]) rfl⟩

/-- C7: under an explicit-only schema every key surviving sanitize is a
declared schema path; kept values are never the literal string "null";
and a field holding the literal string "null" is either dropped by the
deletion condition or appears as an actual null in the output
(src/unnamed/part_003, lines 21-59). -/
theorem sanitize_explicit_only (schema : Schema) (h : schema.explicitOnly = true)
    (w : Bool) (r : JsRec) :
    (∀ kv ∈ sanitizeRec schema w r, (alistGet schema.paths kv.1).isSome = true)
    ∧ (∀ kv ∈ sanitizeRec schema w r, isStrNull kv.2 = false)
    ∧ (∀ k, (k, JsVal.str "null") ∈ r →
        sanitizeDrops schema w k = true ∨ (k, JsVal.null) ∈ sanitizeRec schema w r) := by
  refine ⟨?_, ?_, ?_⟩
  · intro kv hkv
    obtain ⟨a, ha, hentry⟩ := List.mem_filterMap.mp hkv
    obtain ⟨hdrop, hval⟩ := sanitizeEntry_eq_some schema w a kv hentry
    have hkey : kv.1 = a.1 := by
      rcases hval with ⟨_, rfl⟩ | ⟨_, rfl⟩ <;> rfl
    rw [hkey]
    unfold sanitizeDrops at hdrop
    rw [h] at hdrop
    simp only [Bool.true_and, Bool.or_eq_false_iff] at hdrop
    simpa using hdrop.1
  · intro kv hkv
    obtain ⟨a, ha, hentry⟩ := List.mem_filterMap.mp hkv
    obtain ⟨_, hval⟩ := sanitizeEntry_eq_some schema w a kv hentry
    rcases hval with ⟨_, rfl⟩ | ⟨hns, rfl⟩
    · rfl
    · exact hns
  · intro k hk
    by_cases hd : sanitizeDrops schema w k
    · exact Or.inl hd
    · refine Or.inr (List.mem_filterMap.mpr ⟨(k, .str "null"), hk, ?_⟩)
      simp [sanitizeEntry, hd, isStrNull]

/-- Witness for C7: a concrete explicit-only schema and record; the kept
key is the declared path `email`, and its literal "null" value survives as
an actual null. -/
theorem sanitize_explicit_only_witness :
    ({ paths := [("email", {})] } : Schema).explicitOnly = true
    ∧ (alistGet ({ paths := [("email", {})] } : Schema).paths "email").isSome = true
    ∧ ((sanitizeDrops { paths := [("email", {})] } false "email" = true)
        ∨ ("email", JsVal.null) ∈
            sanitizeRec { paths := [("email", {})] } false
              [("email", .str "null"), ("junk", .num 1)]) := by
  refine ⟨rfl, ?_, ?_⟩
  · exact (sanitize_explicit_only { paths := [("email", {})] } rfl false
      [("email", .str "null"), ("junk", .num 1)]).1 ("email", .null)
      (by exact List.mem_singleton.mpr rfl)
  · exact (sanitize_explicit_only { paths := [("email", {})] } rfl false
      [("email", .str "null"), ("junk", .num 1)]).2.2 "email"
      (by exact List.mem_cons_self _ _)

/-- C10: the wire record of `toDatastore` holds exactly the entityData
entries whose value is not undefined (null-valued ones included, with
their value), and every path in the computed excludeFromIndexes list is
contributed by a field whose kept value is neither undefined nor null
(src/lib/entity.js lines 492-531, src/src/helpers/queryhelpers.ts lines
129-166). -/
theorem toDatastore_spec (e : SerEntity) :
    (∀ kv : String × JsVal, kv ∈ (toDatastore e).data ↔ kv ∈ e.entityData ∧ isUndef kv.2 = false)
    ∧ (∀ p ∈ (toDatastore e).excludeFromIndexes,
        ∃ k paths, alistGet e.excludeFromIndexes k = some paths ∧ p ∈ paths ∧
          ∃ v, (k, v) ∈ e.entityData ∧ isUndef v = false ∧ isNull v = false) := by
  constructor
  · intro kv
    constructor
    · intro hkv
      have := List.mem_filter.mp hkv
      exact ⟨this.1, by simpa using this.2⟩
    · intro ⟨h1, h2⟩
      exact List.mem_filter.mpr ⟨h1, by simpa using h2⟩
  · intro p hp
    obtain ⟨s, hs, hps⟩ := List.mem_flatten.mp hp
    obtain ⟨kv, hkv, hget⟩ := List.mem_filterMap.mp hs
    have h1 := List.mem_filter.mp hkv
    have h2 := List.mem_filter.mp h1.1
    exact ⟨kv.1, s, hget, hps,
      kv.2, h2.1, by simpa using h2.2, by simpa using h1.2⟩

/-- Witness for C10 at a concrete entity: the null-valued field `bio` is
kept in the data, the undefined-valued field `tmp` satisfies the
membership characterization, and the exclusion path `meta.secret`
contributed by the non-null field `meta` is traced back to its source
entry. -/
theorem toDatastore_spec_witness :
    (("bio", JsVal.null) ∈
        (toDatastore ⟨⟨none, [.str "User", .int 1]⟩,
          [("bio", .null), ("tmp", .undef), ("meta", .obj [])],
          [("meta", ["meta.secret"])]⟩).data
      ↔ ("bio", JsVal.null) ∈
          ([("bio", .null), ("tmp", .undef), ("meta", .obj [])] : JsRec)
        ∧ isUndef JsVal.null = false)
    ∧ (∃ k paths,
        alistGet ([("meta", ["meta.secret"])] : List (String × List String)) k = some paths
        ∧ "meta.secret" ∈ paths
        ∧ ∃ v, (k, v) ∈ ([("bio", .null), ("tmp", .undef), ("meta", .obj [])] : JsRec)
            ∧ isUndef v = false ∧ isNull v = false) := by
  constructor
  · exact (toDatastore_spec ⟨⟨none, [.str "User", .int 1]⟩,
      [("bio", .null), ("tmp", .undef), ("meta", .obj [])],
      [("meta", ["meta.secret"])]⟩).1 ("bio", .null)
  · exact (toDatastore_spec ⟨⟨none, [.str "User", .int 1]⟩,
      [("bio", .null), ("tmp", .undef), ("meta", .obj [])],
      [("meta", ["meta.secret"])]⟩).2 "meta.secret"
      (by exact List.mem_singleton.mpr rfl)

/-- C6: an integer-like string id (one that `parseDecInt` accepts, such as
"123") is converted by createKey to the integer identifier of the store
when the schema declares no keyType, and is kept as the unchanged string
when keyType is "name"; in both cases that identifier is the trailing
component of the derived key path (src/lib/entity.js lines 320-371). -/
theorem createKey_integer_like (s : String) (n : Int) (h : parseDecInt s = some n)
    (kind : String) (anc : Option (List KeyId)) (ns : Option String) :
    createKey kind { paths := [] } (some (.str s)) anc ns =
        .ok ⟨ns, anc.getD [] ++ [.str kind, .int n]⟩
    ∧ createKey kind { paths := [], keyType := some "name" } (some (.str s)) anc ns =
        .ok ⟨ns, anc.getD [] ++ [.str kind, .str s]⟩
    ∧ (anc.getD [] ++ [KeyId.str kind, KeyId.int n]).getLast? = some (KeyId.int n)
    ∧ (anc.getD [] ++ [KeyId.str kind, KeyId.str s]).getLast? = some (KeyId.str s) := by
  have hs : (s == "") = false := by
    cases hbe : s == ""
    · rfl
    · exfalso
      have hempty : s = "" := by simpa using hbe
      subst hempty
      have : parseDecInt "" = none := rfl
      rw [this] at h
      exact Option.noConfusion h
  have hlast : ∀ (l : List KeyId) (a b : KeyId), (l ++ [a, b]).getLast? = some b := by
    intro l a b
    have : l ++ [a, b] = (l ++ [a]) ++ [b] := by simp
    rw [this, List.getLast?_concat]
  refine ⟨?_, ?_, hlast _ _ _, hlast _ _ _⟩
  · simp [createKey, jsIdTruthy, hs, parseId, h]
    rfl
  · simp [createKey, jsIdTruthy, hs, parseId]
    rfl

/-- Witness for C6 at the concrete id "123" of Scenario F. -/
theorem createKey_integer_like_witness :
    parseDecInt "123" = some 123
    ∧ createKey "User" { paths := [] } (some (.str "123")) none none =
        .ok ⟨none, [.str "User", .int 123]⟩
    ∧ createKey "User" { paths := [], keyType := some "name" } (some (.str "123")) none none =
        .ok ⟨none, [.str "User", .str "123"]⟩ :=
  ⟨rfl, (createKey_integer_like "123" 123 rfl "User" none none).1,
    (createKey_integer_like "123" 123 rfl "User" none none).2.1⟩

/-- Scan for commit or rollback operations in a transaction log. -/
def noCommitOrRollback : List TxnOp → Bool
  | [] => true
  | .commit :: _ => false
  | .rollback :: _ => false
  | _ :: rest => noCommitOrRollback rest

/-- Scan for operations that write to the backing store: a registered
transactional save, a direct save, or a commit. -/
def noStoreWrite : List TxnOp → Bool
  | [] => true
  | .save _ :: _ => false
  | .dsSave _ :: _ => false
  | .commit :: _ => false
  | _ :: rest => noStoreWrite rest

/-- Concrete fixture: the derived key of User 42. -/
def userKey : DsKey := ⟨none, [.str "User", .int 42]⟩

/-- Concrete fixture: a backing store holding a record at the User 42 key. -/
def userStore : DsKey → Option JsRec :=
  fun k => if k = userKey then some [("email", .str "old@x.com")] else none

/-- Concrete fixture for the part_003 update machine: kind User, schema
defaults with a single nullable email field. -/
def userCfg : JsUpdateCfg := ⟨"User", [("email", .null)]⟩

/-- C1: the TypeScript Model.update never invokes commit or rollback on a
caller-supplied transaction, on any store state, data, replace option and
save outcome (src/unnamed/part_006 internalTransaction guard, lines
301-337); but the older JavaScript Model.update of part_003 (lines
340-390) invokes commit on the externally supplied transaction on success
and rollback on it on failure, refuting the claim for that implementation. -/
theorem update_external_transaction :
    (∀ (store : DsKey → Option JsRec) (key : DsKey) (data : JsRec) (replace saveOk : Bool),
      noCommitOrRollback (updateTs store key data replace true saveOk).ops = true)
    ∧ (updateJs userStore userCfg userKey [("email", .str "new@x.com")] true true).ops =
        [.get userKey, .save userKey, .commit]
    ∧ (updateJs userStore userCfg userKey [("email", .str "new@x.com")] true true).usedExternalTxn
        = true
    ∧ (updateJs userStore userCfg userKey [("email", .str "new@x.com")] true false).ops =
        [.get userKey, .rollback] := by
  refine ⟨?_, rfl, rfl, rfl⟩
  intro store key data replace saveOk
  cases replace <;> cases saveOk <;> cases h : store key <;>
    simp [updateTs, noCommitOrRollback, h]

/-- C2: when the backing store holds no record at the derived key and
replace is not set, the TypeScript Model.update settles with
ERR_ENTITY_NOT_FOUND and never issues a transactional save, a direct save
or a commit, whether the transaction is internal or caller-supplied
(src/unnamed/part_006, lines 260-283); but the older JavaScript
Model.update of part_003 (lines 289-338) swallows that error in the catch
handler of getEntity and continues into saveEntity with the error object,
so with validation passing it registers a save under a fresh incomplete
key, commits, and resolves successfully instead of rejecting. -/
theorem update_missing_entity (store : DsKey → Option JsRec) (key : DsKey) (data : JsRec)
    (externalTxn saveOk : Bool) (h : store key = none) :
    ((updateTs store key data false externalTxn saveOk).outcome = .errNotFound
      ∧ noStoreWrite (updateTs store key data false externalTxn saveOk).ops = true)
    ∧ ((updateJs (fun _ => none) userCfg userKey [("email", .str "a@b.com")] false true).outcome
        = .ok ⟨none, [.str "User"]⟩ [("email", .null)]
      ∧ (updateJs (fun _ => none) userCfg userKey [("email", .str "a@b.com")] false true).ops =
          [.run, .get userKey, .save ⟨none, [.str "User"]⟩, .commit]) := by
  refine ⟨?_, rfl, rfl⟩
  cases externalTxn <;> simp [updateTs, h, noStoreWrite]

/-- Witness for C2 at the empty store and the User 42 key. -/
theorem update_missing_entity_witness :
    ((fun _ : DsKey => (none : Option JsRec)) userKey = none)
    ∧ (((updateTs (fun _ => none) userKey [("email", .str "a@b.com")] false false true).outcome
          = .errNotFound
        ∧ noStoreWrite
            (updateTs (fun _ => none) userKey [("email", .str "a@b.com")] false false true).ops
          = true)
      ∧ ((updateJs (fun _ => none) userCfg userKey [("email", .str "a@b.com")] false true).outcome
          = .ok ⟨none, [.str "User"]⟩ [("email", .null)]
        ∧ (updateJs (fun _ => none) userCfg userKey [("email", .str "a@b.com")] false true).ops =
            [.run, .get userKey, .save ⟨none, [.str "User"]⟩, .commit])) :=
  ⟨rfl, update_missing_entity (fun _ => none) userKey [("email", .str "a@b.com")] false true rfl⟩

/-- Lookup in an extended association list: an existing binding wins. -/
theorem alistGet_append_of_some {κ α : Type} [DecidableEq κ] (l1 l2 : List (κ × α))
    (k : κ) (v : α) (h : alistGet l1 k = some v) : alistGet (l1 ++ l2) k = some v := by
  induction l1 with
  | nil => simp [alistGet] at h
  | cons a rest ih =>
    obtain ⟨k1, v1⟩ := a
    by_cases hk : k1 = k
    · simpa [alistGet, hk] using h
    · rw [List.cons_append]
      simp only [alistGet, hk, if_false] at h ⊢
      exact ih h

/-- Lookup in an extended association list falls through to the extension
when the original has no binding. -/
theorem alistGet_append_of_none {κ α : Type} [DecidableEq κ] (l1 l2 : List (κ × α))
    (k : κ) (h : alistGet l1 k = none) : alistGet (l1 ++ l2) k = alistGet l2 k := by
  induction l1 with
  | nil => rfl
  | cons a rest ih =>
    obtain ⟨k1, v1⟩ := a
    by_cases hk : k1 = k
    · simp [alistGet, hk] at h
    · rw [List.cons_append]
      simp only [alistGet, hk, if_false] at h ⊢
      exact ih h

/-- Invariant of the loader: no key was ever fetched twice, and every
fetched key is cached. -/
def LoaderInv (ld : Loader) : Prop :=
  ld.fetched.Nodup ∧ ∀ k ∈ ld.fetched, (alistGet ld.cache k).isSome = true

/-- The loader invariant is preserved by `loadEach`, and the cache only
grows: a key is fetched only when it is not yet cached, and is cached as
soon as it is fetched, so no key can be fetched a second time. -/
theorem loadEach_inv (store : DsKey → Option JsRec) (ks : List DsKey) (ld : Loader)
    (h : LoaderInv ld) :
    LoaderInv (loadEach store ks ld).2
    ∧ ∀ k, (alistGet ld.cache k).isSome = true →
        (alistGet (loadEach store ks ld).2.cache k).isSome = true := by
  induction ks generalizing ld with
  | nil => exact ⟨h, fun _ hk => hk⟩
  | cons k rest ih =>
    cases hc : alistGet ld.cache k with
    | some v =>
      have := ih ld h
      simpa [loadEach, hc] using this
    | none =>
      have hknotin : k ∉ ld.fetched := by
        intro hk
        have := h.2 k hk
        rw [hc] at this
        simp at this
      have h1 : LoaderInv ⟨ld.cache ++ [(k, fetchVal store k)], ld.fetched ++ [k]⟩ := by
        constructor
        · simp [List.nodup_append, h.1, hknotin]
        · intro k2 hk2
          rcases List.mem_append.mp hk2 with hin | hin
          · obtain ⟨v2, hv2⟩ := Option.isSome_iff_exists.mp (h.2 k2 hin)
            rw [alistGet_append_of_some _ _ _ _ hv2]
            rfl
          · have hkk : k2 = k := by simpa using hin
            subst hkk
            rw [alistGet_append_of_none _ _ _ hc]
            simp [alistGet]
      have h2 := ih _ h1
      constructor
      · simpa [loadEach, hc] using h2.1
      · intro k2 hk2
        obtain ⟨v2, hv2⟩ := Option.isSome_iff_exists.mp hk2
        have hmono : (alistGet (ld.cache ++ [(k, fetchVal store k)]) k2).isSome = true := by
          rw [alistGet_append_of_some _ _ _ _ hv2]
          rfl
        simpa [loadEach, hc] using h2.2 k2 hmono

/-- The loader invariant is preserved across the metas of one level. -/
theorem fetchAndMerge_inv (store : DsKey → Option JsRec) (metas : List PopulateMeta)
    (ld : Loader) (h : LoaderInv ld) : LoaderInv (fetchAndMerge store metas ld).2 := by
  induction metas generalizing ld with
  | nil => exact h
  | cons meta rest ih =>
    cases he : meta.keysToFetch.isEmpty with
    | true =>
      have := ih ld h
      simpa [fetchAndMerge, he] using this
    | false =>
      have := ih _ (loadEach_inv store meta.keysToFetch ld h).1
      simpa [fetchAndMerge, he] using this

/-- The loader invariant is preserved across the levels of one populate
call. -/
theorem runLevels_inv (store : DsKey → Option JsRec) (refs : List (List PopRef)) :
    ∀ (ents : List JsVal) (ld : Loader), LoaderInv ld →
      LoaderInv (runLevels store refs ents ld).2 := by
  induction refs with
  | nil => exact fun _ _ h => h
  | cons lvl rest ih =>
    intro ents ld h
    cases hm : populateMetas lvl ents with
    | error e => simpa [runLevels, hm] using h
    | ok metas =>
      have := ih (fetchAndMerge store metas ld).1 _ (fetchAndMerge_inv store metas ld h)
      simpa [runLevels, hm] using this

/-- Every populate run fetches pairwise distinct keys from the backing
store: the load-and-cache map collapses duplicate requests. -/
theorem runPopulate_fetched_nodup (store : DsKey → Option JsRec)
    (refs : List (List PopRef)) (ents : List JsVal) :
    ((runPopulate store refs ents).2).Nodup := by
  have h : LoaderInv ⟨[], []⟩ := ⟨List.nodup_nil, by intro k hk; simp at hk⟩
  exact (runLevels_inv store refs ents ⟨[], []⟩ h).1

/-- Concrete fixture for C4: the key of Address 1. -/
def c4Key : DsKey := ⟨none, [.str "Address", .int 1]⟩

/-- Concrete fixture for C4: a backing store holding a record at that key. -/
def c4Store : DsKey → Option JsRec :=
  fun k => if k = c4Key then some [("city", .str "x")] else none

/-- C4 counterexample: one root entity whose two distinct paths refA and
refB hold the identical key. The store is fetched exactly once for that
key, but the per-key map `mapKeyToPropAndSelect` is keyed by the
stringified key, so the refB registration overwrote the refA one
(src/unnamed/part_003, line 721): after populate resolves, refB holds the
projected record while refA still holds the raw key — the requesting path
refA never receives the fetched record, refuting the claim. -/
theorem populate_two_paths_counterexample :
    (runPopulate c4Store [[⟨"refA", []⟩, ⟨"refB", []⟩]]
        [.obj [("refA", .key c4Key), ("refB", .key c4Key)]]).2 = [c4Key]
    ∧ (runPopulate c4Store [[⟨"refA", []⟩, ⟨"refB", []⟩]]
        [.obj [("refA", .key c4Key), ("refB", .key c4Key)]]).1 =
      .ok [.obj [("refA", .key c4Key),
                 ("refB", .obj [("city", .str "x"), ("id", .num 1)])]] :=
  ⟨rfl, rfl⟩

/-- C4 as amended: during one populate call (fetching through the
dataloader) the backing store is never asked twice for the same key, and
each requesting root entity receives the fetched record; but when two
distinct paths of the same root entity hold the identical key, only the
last-registered path receives the record and the earlier path keeps its
raw key value. -/
theorem populate_dedup_amended :
    (∀ (store : DsKey → Option JsRec) (refs : List (List PopRef)) (ents : List JsVal),
      ((runPopulate store refs ents).2).Nodup)
    ∧ runPopulate c4Store [[⟨"ref", []⟩]]
        [.obj [("ref", .key c4Key)], .obj [("ref", .key c4Key)]] =
      (.ok [.obj [("ref", .obj [("city", .str "x"), ("id", .num 1)])],
            .obj [("ref", .obj [("city", .str "x"), ("id", .num 1)])]], [c4Key])
    ∧ lget ["refA"] (.obj [("refA", .key c4Key),
        ("refB", .obj [("city", .str "x"), ("id", .num 1)])]) = .key c4Key :=
  ⟨runPopulate_fetched_nodup, rfl, rfl⟩

/-- C5 counterexample: populate of the level-1 path address.addressBook on
a root entity with no address key. Before the call the path holds no value
(lget is undefined); populate resolves without throwing, but it does write
at the path: the level-0 pass sets address to null, and the level-1 pass
calls lodash set on the path, which replaces the null intermediate by a
fresh object and writes null at address.addressBook — the path is neither
untouched nor absent afterwards, refuting the claim. -/
theorem populate_missing_ref_counterexample :
    lget ["address", "addressBook"] (.obj []) = .undef
    ∧ (runPopulate (fun _ => none) (refsForPath "address.addressBook" []) [.obj []]).1 =
        .ok [.obj [("address", .obj [("addressBook", .null)])]]
    ∧ lget ["address", "addressBook"]
        (.obj [("address", .obj [("addressBook", .null)])]) = .null :=
  ⟨rfl, rfl, rfl⟩

/-- C5 as amended: populate with path address.addressBook on a root whose
address field holds no key resolves without throwing and without any store
fetch, and writes null at the nested path (creating an object at address),
rather than leaving the path untouched; this holds for every backing
store, since no key is ever queued. -/
theorem populate_missing_ref_amended (store : DsKey → Option JsRec) :
    runPopulate store (refsForPath "address.addressBook" []) [.obj []] =
      (.ok [.obj [("address", .obj [("addressBook", .null)])]], []) := rfl

/-- Unfolding equation of `runDeleteAll` for positive fuel. -/
theorem runDeleteAll_step (hh : Bool) (f : Nat) (store : List Nat) :
    runDeleteAll hh (f + 1) store =
      (if (store.take limitDataPerQuery).length = 0 then
        some [.query (store.take limitDataPerQuery)]
       else
        match runDeleteAll hh f
            (deleteBatches hh (store.take limitDataPerQuery)
              (((store.take limitDataPerQuery).length + (maxEntitiesPerBatch - 1)) /
                maxEntitiesPerBatch) 0 store).2 with
        | none => none
        | some rest =>
          some (.query (store.take limitDataPerQuery) ::
            ((deleteBatches hh (store.take limitDataPerQuery)
              (((store.take limitDataPerQuery).length + (maxEntitiesPerBatch - 1)) /
                maxEntitiesPerBatch) 0 store).1 ++ rest))) := rfl

/-- A `deleteAll` round on an empty store stops after the query. -/
theorem runDeleteAll_succ_nil (hh : Bool) (f : Nat) :
    runDeleteAll hh (f + 1) [] = some [.query []] := rfl

/-- Three consecutive chunk deletions leave nothing of a store the chunks
cover. -/
theorem filter_three_nil (s b0 b1 b2 : List Nat)
    (hcov : ∀ x ∈ s, x ∈ b0 ∨ x ∈ b1 ∨ x ∈ b2) :
    ((s.filter (fun k => !b0.contains k)).filter (fun k => !b1.contains k)).filter
      (fun k => !b2.contains k) = [] := by
  rw [List.filter_eq_nil_iff]
  intro a ha
  simp only [List.mem_filter] at ha
  obtain ⟨⟨hs, hb0⟩, hb1⟩ := ha
  intro hb2
  have h0 : a ∉ b0 := by simpa using hb0
  have h1 : a ∉ b1 := by simpa using hb1
  have h2 : a ∉ b2 := by simpa using hb2
  rcases hcov a hs with hm | hm | hm
  exacts [h0 hm, h1 hm, h2 hm]

/-- A list of 1200 keys is covered by its three 500-slices. -/
theorem chunks_cover (l : List Nat) (hlen : l.length = 1200) :
    ∀ x ∈ l, x ∈ l.take 500 ∨ x ∈ (l.drop 500).take 500 ∨ x ∈ (l.drop 1000).take 500 := by
  intro x hx
  have h1 : l.take 500 ++ l.drop 500 = l := List.take_append_drop _ _
  have h2 : (l.drop 500).take 500 ++ (l.drop 500).drop 500 = l.drop 500 :=
    List.take_append_drop _ _
  have h3 : (l.drop 500).drop 500 = l.drop 1000 := by rw [List.drop_drop]
  have h4 : (l.drop 1000).take 500 = l.drop 1000 :=
    List.take_of_length_le (by rw [List.length_drop, hlen]; omega)
  rw [← h1] at hx
  rcases List.mem_append.mp hx with hx0 | hx1
  · exact Or.inl hx0
  · rw [← h2] at hx1
    rcases List.mem_append.mp hx1 with hxa | hxb
    · exact Or.inr (Or.inl hxa)
    · rw [h3, ← h4] at hxb
      exact Or.inr (Or.inr hxb)

/-- Expansion of the three-batch loop: slices at indices 0, 500 and 1000,
clearQueries only on the first, one delay between consecutive batches, and
the store filtered by each batch in turn. -/
theorem deleteBatches_1200_expand (s : List Nat) :
    deleteBatches false s 3 0 s =
      ([.deleteBatch (s.take 500) true, .delay,
        .deleteBatch ((s.drop 500).take 500) false, .delay,
        .deleteBatch ((s.drop 1000).take 500) false],
       ((s.filter (fun k => !(s.take 500).contains k)).filter
          (fun k => !((s.drop 500).take 500).contains k)).filter
         (fun k => !((s.drop 1000).take 500).contains k)) := rfl

/-- The three batches of a 1200-key store delete all of it. -/
theorem deleteBatches_1200 (s : List Nat) (h : s.length = 1200) :
    deleteBatches false s 3 0 s =
      ([.deleteBatch (s.take 500) true, .delay,
        .deleteBatch ((s.drop 500).take 500) false, .delay,
        .deleteBatch ((s.drop 1000).take 500) false], []) := by
  rw [deleteBatches_1200_expand,
    filter_three_nil s (s.take 500) ((s.drop 500).take 500) ((s.drop 1000).take 500)
      (chunks_cover s h)]

/-- C3: deleteAll against a kind holding exactly 1200 entities and no
delete pre-hooks issues exactly 3 delete batches of sizes 500, 500 and
200, strictly sequentially with the inter-batch delay between consecutive
batches, clears the kind-level query cache only on the first batch, and
after the last batch re-runs the capped key query, which returns zero keys
and stops the run (src/unnamed/part_003, lines 461-552). -/
theorem deleteAll_1200_batches (store : List Nat) (h : store.length = 1200) (n : Nat) :
    runDeleteAll false (n + 2) store =
      some [.query store,
            .deleteBatch (store.take 500) true, .delay,
            .deleteBatch ((store.drop 500).take 500) false, .delay,
            .deleteBatch ((store.drop 1000).take 500) false,
            .query []]
    ∧ (store.take 500).length = 500
    ∧ ((store.drop 500).take 500).length = 500
    ∧ ((store.drop 1000).take 500).length = 200 := by
  have htake : store.take limitDataPerQuery = store :=
    List.take_of_length_le (by rw [h]; norm_num [limitDataPerQuery])
  have hceil : (store.length + (maxEntitiesPerBatch - 1)) / maxEntitiesPerBatch = 3 := by
    rw [h]; norm_num [maxEntitiesPerBatch]
  refine ⟨?_, ?_, ?_, ?_⟩
  · rw [show n + 2 = (n + 1) + 1 from rfl, runDeleteAll_step, htake, hceil]
    rw [if_neg (by rw [h]; omega)]
    simp [deleteBatches_1200 store h, runDeleteAll_succ_nil]
  · rw [List.length_take, h]; omega
  · rw [List.length_take, List.length_drop, h]; omega
  · rw [List.length_take, List.length_drop, h]; omega

/-- Witness for C3 at the concrete store of the keys 0..1199 with fuel 2. -/
theorem deleteAll_1200_batches_witness :
    (List.range 1200).length = 1200
    ∧ runDeleteAll false 2 (List.range 1200) =
      some [.query (List.range 1200),
            .deleteBatch ((List.range 1200).take 500) true, .delay,
            .deleteBatch (((List.range 1200).drop 500).take 500) false, .delay,
            .deleteBatch (((List.range 1200).drop 1000).take 500) false,
            .query []] :=
  ⟨by simp, (deleteAll_1200_batches (List.range 1200) (by simp) 0).1⟩
